import Mathlib

/-!
Verification of the STGen core: the orchestration loop, the streaming
metrics pipeline, the fault-injection layer and the traffic generator.

The Python sources (`stgen/orchestrator.py`, `stgen/metrics_collector.py`,
`stgen/failure_injector.py`, `stgen/sensor_generator.py`, `stgen/main.py`)
are shallowly embedded: Python floats become `ℚ`, dictionaries become
structures, the process-global `random` module becomes an explicit stream
of draws (a function `ℕ → ℚ` for `random.random()` and `ℕ → ℕ` for the
integer draws) threaded with an index, and `time.time()` becomes an
explicit `now : ℚ` argument supplied per call.
-/

namespace STGen

/-- Python's `int()` applied to a non-integral number: truncation toward
zero (`⌈q⌉` for negative `q`, `⌊q⌋` otherwise). -/
def pyTrunc (q : ℚ) : ℤ := if q < 0 then ⌈q⌉ else ⌊q⌋

/-! ## Orchestrator (`stgen/orchestrator.py`)

`Orchestrator.self.metrics` is the dictionary `{"sent", "recv", "lat",
"err"}` initialised to zeros/empty lists in `Orchestrator.__init__`. -/

/-- The orchestrator's `self.metrics` dictionary. -/
structure OrchMetrics where
  sent : ℕ
  recv : ℕ
  lat : List ℚ
  err : List String

/-- `Orchestrator.__init__`: `{"sent": 0, "recv": 0, "lat": [], "err": []}`. -/
def OrchMetrics.init : OrchMetrics := ⟨0, 0, [], []⟩

/-- What one `self.protocol.send_data(cid, payload)` call in
`Orchestrator._run_active` can produce: an exception, or a pair
`(ok, t_srv)` where `t_srv` may be `None` (modelled `none`). -/
inductive DriverResult where
  | errored (msg : String)
  | returned (ok : Bool) (t_srv : Option ℚ)

/-- One iteration of the `for cid, payload, to in stream` loop body of
`Orchestrator._run_active`, given the pre-send timestamp `t0`
(`time.perf_counter()`) and the outcome of `send_data`.  An exception
appends to `err` and continues; otherwise `sent` is incremented and,
when `ok and t_srv and t_srv > t0` (Python truthiness of the float
`t_srv` is `t_srv ≠ 0`), the latency `(t_srv - t0) * 1000` is appended
and `recv` is incremented. -/
def stepActive (m : OrchMetrics) (t0 : ℚ) (res : DriverResult) : OrchMetrics :=
  match res with
  | .errored e => { m with err := m.err ++ [e] }
  | .returned ok ts =>
    let m1 : OrchMetrics := { m with sent := m.sent + 1 }
    match ts with
    | none => m1
    | some q =>
      if ok = true ∧ q ≠ 0 ∧ t0 < q then
        { m1 with lat := m1.lat ++ [(q - t0) * 1000], recv := m1.recv + 1 }
      else m1

/-- The whole active-mode loop of `Orchestrator._run_active` over a trace
of (pre-send timestamp, driver outcome) pairs. -/
def runActive (m : OrchMetrics) (trace : List (ℚ × DriverResult)) : OrchMetrics :=
  trace.foldl (fun acc ev => stepActive acc ev.1 ev.2) m

/-- The loss formula shared by `Orchestrator.save_report` and
`MetricsCollector.get_summary`: `1.0 - (recv / max(sent, 1))`. -/
def lossOf (sent recv : ℕ) : ℚ := 1 - (recv : ℚ) / ((max sent 1 : ℕ) : ℚ)

/-- The `"loss"` field `Orchestrator.save_report` writes into the summary:
`1.0 - (self.metrics["recv"] / max(self.metrics["sent"], 1))`. -/
def saveReportLoss (m : OrchMetrics) : ℚ :=
  1 - (m.recv : ℚ) / ((max m.sent 1 : ℕ) : ℚ)

/-- The counter fields of `MetricsCollector`. -/
structure MCCounters where
  packets_sent : ℕ
  packets_recv : ℕ

/-- The `loss_rate` computed in `MetricsCollector.get_summary`:
`1.0 - (self.packets_recv / max(self.packets_sent, 1))`. -/
def getSummaryLoss (c : MCCounters) : ℚ :=
  1 - (c.packets_recv : ℚ) / ((max c.packets_sent 1 : ℕ) : ℚ)

theorem stepActive_recv_le_sent (m : OrchMetrics) (t0 : ℚ) (r : DriverResult)
    (h : m.recv ≤ m.sent) :
    (stepActive m t0 r).recv ≤ (stepActive m t0 r).sent := by
  rcases r with e | ⟨ok, ts⟩
  · simpa [stepActive] using h
  · rcases ts with _ | q
    · simpa [stepActive] using Nat.le_succ_of_le h
    · by_cases hc : ok = true ∧ q ≠ 0 ∧ t0 < q
      · simp only [stepActive, if_pos hc]
        exact Nat.succ_le_succ h
      · simp only [stepActive, if_neg hc]
        exact Nat.le_succ_of_le h

theorem runActive_recv_le_sent (m : OrchMetrics) (trace : List (ℚ × DriverResult))
    (h : m.recv ≤ m.sent) :
    (runActive m trace).recv ≤ (runActive m trace).sent := by
  induction trace generalizing m with
  | nil => exact h
  | cons ev rest ih =>
    exact ih (stepActive m ev.1 ev.2) (stepActive_recv_le_sent m ev.1 ev.2 h)

theorem lossOf_bounds (sent recv : ℕ) (h : recv ≤ sent) :
    0 ≤ lossOf sent recv ∧ lossOf sent recv ≤ 1 := by
  have hd : (1 : ℚ) ≤ ((max sent 1 : ℕ) : ℚ) := by
    exact_mod_cast Nat.le_max_right sent 1
  have hdpos : (0 : ℚ) < ((max sent 1 : ℕ) : ℚ) := lt_of_lt_of_le one_pos hd
  have hrec : (recv : ℚ) ≤ ((max sent 1 : ℕ) : ℚ) := by
    exact_mod_cast le_trans h (Nat.le_max_left sent 1)
  constructor
  · have : (recv : ℚ) / ((max sent 1 : ℕ) : ℚ) ≤ 1 :=
      (div_le_one hdpos).mpr hrec
    simp only [lossOf]
    linarith
  · have : 0 ≤ (recv : ℚ) / ((max sent 1 : ℕ) : ℚ) :=
      div_nonneg (by positivity) (le_of_lt hdpos)
    simp only [lossOf]
    linarith

/-- C1: in every finalized run summary produced from the active
orchestration loop (any trace of sends/receives), the received count is
at most the sent count, the loss written by `save_report` (and the
`loss_rate` of `MetricsCollector.get_summary` on the same counters)
equals `1 - recv / max(sent, 1)`, and that loss lies in `[0, 1]`. -/
theorem C1_summary_loss_invariants (trace : List (ℚ × DriverResult)) :
    (runActive OrchMetrics.init trace).recv ≤ (runActive OrchMetrics.init trace).sent ∧
    saveReportLoss (runActive OrchMetrics.init trace)
      = lossOf (runActive OrchMetrics.init trace).sent (runActive OrchMetrics.init trace).recv ∧
    getSummaryLoss ⟨(runActive OrchMetrics.init trace).sent,
        (runActive OrchMetrics.init trace).recv⟩
      = lossOf (runActive OrchMetrics.init trace).sent (runActive OrchMetrics.init trace).recv ∧
    0 ≤ saveReportLoss (runActive OrchMetrics.init trace) ∧
    saveReportLoss (runActive OrchMetrics.init trace) ≤ 1 := by
  have hle : (runActive OrchMetrics.init trace).recv ≤ (runActive OrchMetrics.init trace).sent :=
    runActive_recv_le_sent OrchMetrics.init trace (Nat.le_refl 0)
  have hbounds := lossOf_bounds _ _ hle
  exact ⟨hle, rfl, rfl, hbounds.1, hbounds.2⟩

/-- Witness for C1: a one-Reading trace with a valid receipt: sent = 1,
recv = 1, loss = 0. -/
theorem C1_witness :
    (runActive OrchMetrics.init [(100, .returned true (some 101))]).recv
      ≤ (runActive OrchMetrics.init [(100, .returned true (some 101))]).sent ∧
    saveReportLoss (runActive OrchMetrics.init [(100, .returned true (some 101))])
      = lossOf (runActive OrchMetrics.init [(100, .returned true (some 101))]).sent
          (runActive OrchMetrics.init [(100, .returned true (some 101))]).recv ∧
    getSummaryLoss ⟨(runActive OrchMetrics.init [(100, .returned true (some 101))]).sent,
        (runActive OrchMetrics.init [(100, .returned true (some 101))]).recv⟩
      = lossOf (runActive OrchMetrics.init [(100, .returned true (some 101))]).sent
          (runActive OrchMetrics.init [(100, .returned true (some 101))]).recv ∧
    0 ≤ saveReportLoss (runActive OrchMetrics.init [(100, .returned true (some 101))]) ∧
    saveReportLoss (runActive OrchMetrics.init [(100, .returned true (some 101))]) ≤ 1 :=
  C1_summary_loss_invariants [(100, .returned true (some 101))]

/-- C2: if the driver-returned server timestamp is not strictly greater
than the pre-send timestamp, `_run_active` records no latency sample for
that Reading and does not increment `recv` (while `sent` is still
incremented). -/
theorem C2_stale_timestamp_not_recorded (m : OrchMetrics) (t0 q : ℚ) (ok : Bool)
    (h : q ≤ t0) :
    (stepActive m t0 (.returned ok (some q))).lat = m.lat ∧
    (stepActive m t0 (.returned ok (some q))).recv = m.recv ∧
    (stepActive m t0 (.returned ok (some q))).sent = m.sent + 1 := by
  have hc : ¬ (ok = true ∧ q ≠ 0 ∧ t0 < q) := by
    rintro ⟨-, -, hlt⟩
    exact absurd hlt (not_lt.mpr h)
  simp [stepActive, if_neg hc]

/-- Witness for C2: a Reading with `send_timestamp = 100.0` and a
driver-returned `server_timestamp = 99.0` is counted as sent but yields
no latency sample and no `recv` increment. -/
theorem C2_witness :
    (stepActive OrchMetrics.init 100 (.returned true (some 99))).lat = OrchMetrics.init.lat ∧
    (stepActive OrchMetrics.init 100 (.returned true (some 99))).recv = OrchMetrics.init.recv ∧
    (stepActive OrchMetrics.init 100 (.returned true (some 99))).sent = OrchMetrics.init.sent + 1 :=
  C2_stale_timestamp_not_recorded OrchMetrics.init 100 99 true (by norm_num)

/-! ## Fault injector (`stgen/failure_injector.py`)

Randomness is modelled by explicit streams: `r : ℕ → ℚ` gives the
successive `random.random()` draws (indexed by a counter threaded through
every call) and `nr : ℕ → ℕ` the successive integer draws
(`random.randint`).  `time.time()` is the explicit argument `now`;
Python's process-seeded string `hash` is an abstract `pyHash` parameter. -/

/-- The `FailureEvent` dataclass.  `metadata` is only ever
`{"delay_ms": d}` (latency spikes), modelled as the optional delay. -/
structure FailureEvent where
  time_sec : ℚ
  failure_type : String
  target : Option String := none
  duration_sec : Option ℚ := none
  metadata : Option ℚ := none

/-- The `network_partition` configuration sub-record. -/
structure PartitionCfg where
  start_sec : ℚ
  duration_sec : ℚ

/-- The `latency_spike` configuration sub-record. -/
structure SpikeCfg where
  probability : ℚ
  duration_ms : ℚ

/-- The state of a `FailureInjector` instance. -/
structure Injector where
  packet_loss_rate : ℚ
  corruption_rate : ℚ
  crash_times : List ℚ
  partition_cfg : Option PartitionCfg
  latency_spike_cfg : Option SpikeCfg
  crashed_clients : List String
  partition_active : Bool
  partition_end_time : ℚ
  start_time : ℚ
  events : List FailureEvent

/-- `FailureInjector.__init__`: rates and schedules from the
`failure_injection` config section, empty crashed set, no active
partition, empty event log, start time stamped `now`. -/
def Injector.init (packet_loss corruption : ℚ) (crashes : List ℚ)
    (partition : Option PartitionCfg) (spike : Option SpikeCfg) (now : ℚ) : Injector :=
  ⟨packet_loss, corruption, crashes, partition, spike, [], false, 0, now, []⟩

/-- The payload dictionary fields the injector and orchestrator touch
(`"sensor_data"`, `"seq_no"`, `"node_id"`); a missing key is `none`. -/
structure Payload where
  sensor_data : Option String := none
  seq_no : Option ℕ := none
  node_id : Option String := none

/-- Builds a `FailureEvent` (the keyword fields of the dataclass call
sites, in declaration order). -/
def mkEvent (t : ℚ) (ty : String) (tgt : Option String) (dur : Option ℚ)
    (extra : Option ℚ) : FailureEvent :=
  ⟨t, ty, tgt, dur, extra⟩

/-- `FailureInjector.should_drop_packet`: crashed clients drop first;
then an active, unexpired partition drops the `hash(client_id) % 2 == 0`
half; else a `random.random() < self.packet_loss_rate` draw drops and
logs a `packet_loss` event.  Returns (drop?, new state, next draw index). -/
def should_drop_packet (pyHash : String → ℕ) (s : Injector) (now : ℚ)
    (cid : String) (r : ℕ → ℚ) (k : ℕ) : Bool × Injector × ℕ :=
  if cid ∈ s.crashed_clients then (true, s, k)
  else if s.partition_active = true ∧ now < s.partition_end_time ∧ pyHash cid % 2 = 0 then
    (true, s, k)
  else if r k < s.packet_loss_rate then
    (true, { s with events := s.events ++ [mkEvent (now - s.start_time) "packet_loss" (some cid) none none] }, k + 1)
  else (false, s, k + 1)

/-- `FailureInjector.should_corrupt_message`. -/
def should_corrupt_message (s : Injector) (now : ℚ) (r : ℕ → ℚ) (k : ℕ) :
    Bool × Injector × ℕ :=
  if r k < s.corruption_rate then
    (true, { s with events := s.events ++ [mkEvent (now - s.start_time) "corruption" none none none] }, k + 1)
  else (false, s, k + 1)

/-- `FailureInjector.corrupt_payload`: tags `sensor_data` and, when
`seq_no` is present and a draw exceeds 0.5, perturbs it by
`randint(-100, 100)` (the integer draw modulo 201, shifted) modulo 65536. -/
def corrupt_payload (p : Payload) (r : ℕ → ℚ) (k : ℕ) (nr : ℕ → ℕ) (j : ℕ) :
    Payload × ℕ × ℕ :=
  let p1 : Payload := { p with sensor_data := p.sensor_data.map (fun s => "CORRUPTED_" ++ s) }
  match p1.seq_no with
  | none => (p1, k, j)
  | some sq =>
    if r k > 1/2 then
      let sq1 : ℕ := ((((sq : ℤ) + ((nr j % 201 : ℕ) : ℤ) - 100) % 65536)).toNat
      ({ p1 with seq_no := some sq1 }, k + 1, j + 1)
    else (p1, k + 1, j)

/-- The membership test of `check_client_crashes`: is the configured
crash time among the recorded `client_crash` events' `time_sec` fields
(which store the elapsed time at which the event fired)? -/
def crashRecorded (evs : List FailureEvent) (ct : ℚ) : Bool :=
  decide (ct ∈ (evs.filter (fun e => e.failure_type == "client_crash")).map FailureEvent.time_sec)

/-- `FailureInjector.check_client_crashes`: for each configured crash
time within 0.5s of `elapsed` and not yet recorded (per `crashRecorded`),
crash the pseudo-random client `"client_" ++ toString (randint 0 10)`
(the integer draw modulo 11) and append a `client_crash` event stamped
with `elapsed` (not with the configured time). -/
def check_client_crashes (s : Injector) (now : ℚ) (nr : ℕ → ℕ) (j : ℕ) :
    List String × Injector × ℕ :=
  let elapsed := now - s.start_time
  s.crash_times.foldl
    (fun (acc : List String × Injector × ℕ) ct =>
      let s1 := acc.2.1
      let j1 := acc.2.2
      if |elapsed - ct| < 1/2 ∧ crashRecorded s1.events ct = false then
        let cid := "client_" ++ toString (nr j1 % 11)
        let s2 := { s1 with crashed_clients := s1.crashed_clients.insert cid, events := s1.events ++ [mkEvent elapsed "client_crash" (some cid) none none] }
        (acc.1 ++ [cid], s2, j1 + 1)
      else acc)
    ([], s, j)

/-- `FailureInjector.revive_client`: removes the client from the crashed
set (when present) and logs a `client_revive` event. -/
def revive_client (s : Injector) (now : ℚ) (cid : String) : Injector :=
  if cid ∈ s.crashed_clients then
    { s with crashed_clients := s.crashed_clients.erase cid, events := s.events ++ [mkEvent (now - s.start_time) "client_revive" (some cid) none none] }
  else s

/-- `FailureInjector.check_network_partition`. -/
def check_network_partition (s : Injector) (now : ℚ) : Bool × Injector :=
  match s.partition_cfg with
  | none => (false, s)
  | some cfg =>
    if s.partition_active = false ∧ |now - s.start_time - cfg.start_sec| < 1/2 then
      (true, { s with partition_active := true, partition_end_time := now + cfg.duration_sec, events := s.events ++ [mkEvent (now - s.start_time) "network_partition" none (some cfg.duration_sec) none] })
    else if s.partition_active = true ∧ s.partition_end_time ≤ now then
      (false, { s with partition_active := false, events := s.events ++ [mkEvent (now - s.start_time) "partition_healed" none none none] })
    else (false, s)

/-- `FailureInjector.inject_latency_spike`. -/
def inject_latency_spike (s : Injector) (now : ℚ) (r : ℕ → ℚ) (k : ℕ) :
    Option ℚ × Injector × ℕ :=
  match s.latency_spike_cfg with
  | none => (none, s, k)
  | some cfg =>
    if r k < cfg.probability then
      (some (cfg.duration_ms / 1000),
       { s with events := s.events ++ [mkEvent (now - s.start_time) "latency_spike" none none (some cfg.duration_ms)] }, k + 1)
    else (none, s, k + 1)

/-- The `wrapped_send` closure produced by `wrap_send_with_failures`:
check crashes, check partition, maybe drop (returning `(False, 0.0)`
without calling the driver), maybe corrupt, maybe spike, then delegate
to the underlying `send_func`. -/
def wrapped_send (pyHash : String → ℕ) (send_func : String → Payload → Bool × ℚ)
    (s : Injector) (now : ℚ) (cid : String) (data : Payload)
    (r : ℕ → ℚ) (k : ℕ) (nr : ℕ → ℕ) (j : ℕ) : (Bool × ℚ) × Injector × ℕ × ℕ :=
  let c1 := check_client_crashes s now nr j
  let p1 := check_network_partition c1.2.1 now
  let d1 := should_drop_packet pyHash p1.2 now cid r k
  if d1.1 = true then ((false, 0), d1.2.1, d1.2.2, c1.2.2)
  else
    let c2 := should_corrupt_message d1.2.1 now r d1.2.2
    let dd := if c2.1 = true then corrupt_payload data r c2.2.2 nr c1.2.2
              else (data, c2.2.2, c1.2.2)
    let sp := inject_latency_spike c2.2.1 now r dd.2.1
    (send_func cid dd.1, sp.2.1, sp.2.2, dd.2.2)

/-- The injected send path over a whole Reading sequence: each item is
`(now, cid, payload)`; outcomes are collected in order and the injector
state and draw indices are threaded. -/
def runWrapped (pyHash : String → ℕ) (send_func : String → Payload → Bool × ℚ)
    (r : ℕ → ℚ) (nr : ℕ → ℕ) :
    Injector → ℕ → ℕ → List (ℚ × String × Payload) →
      List (Bool × ℚ) × Injector × ℕ × ℕ
  | s, k, j, [] => ([], s, k, j)
  | s, k, j, item :: rest =>
    let w := wrapped_send pyHash send_func s item.1 item.2.1 item.2.2 r k nr j
    let t := runWrapped pyHash send_func r nr w.2.1 w.2.2.1 w.2.2.2 rest
    (w.1 :: t.1, t.2)

theorem wrapped_send_zero_config (pyHash : String → ℕ) (f : String → Payload → Bool × ℚ)
    (t now : ℚ) (cid : String) (data : Payload) (r : ℕ → ℚ) (k : ℕ) (nr : ℕ → ℕ) (j : ℕ)
    (hr : ∀ i, 0 ≤ r i) :
    wrapped_send pyHash f (Injector.init 0 0 [] none none t) now cid data r k nr j
      = (f cid data, Injector.init 0 0 [] none none t, k + 2, j) := by
  simp [wrapped_send, check_client_crashes, check_network_partition, should_drop_packet,
        should_corrupt_message, inject_latency_spike, Injector.init,
        (hr k).not_lt, (hr (k + 1)).not_lt]

/-- C3: with `packet_loss = 0`, `message_corruption = 0`, no latency
spike, no crash schedule and no partition schedule, the wrapped send of
`wrap_send_with_failures` returns, for every underlying send function,
client id and payload of the Reading sequence, exactly the outcomes of
the undecorated send function, and the injector state is untouched.
(`random.random()` draws are nonnegative, hence never below a zero
rate.) -/
theorem C3_zero_injection_transparent (pyHash : String → ℕ)
    (f : String → Payload → Bool × ℚ) (t : ℚ) (r : ℕ → ℚ) (nr : ℕ → ℕ)
    (items : List (ℚ × String × Payload)) (k j : ℕ) (hr : ∀ i, 0 ≤ r i) :
    (runWrapped pyHash f r nr (Injector.init 0 0 [] none none t) k j items).1
        = items.map (fun it => f it.2.1 it.2.2) ∧
    (runWrapped pyHash f r nr (Injector.init 0 0 [] none none t) k j items).2.1
        = Injector.init 0 0 [] none none t := by
  induction items generalizing k j with
  | nil => exact ⟨rfl, rfl⟩
  | cons it rest ih =>
    have hw := wrapped_send_zero_config pyHash f t it.1 it.2.1 it.2.2 r k nr j hr
    have hrest := ih (k + 2) j
    simp only [runWrapped, hw, List.map_cons]
    exact ⟨by rw [hrest.1], hrest.2⟩

/-- Witness for C3: one Reading through a zero-configured injector
produces exactly the undecorated outcome and leaves the injector state
at its initial value. -/
theorem C3_witness :
    (runWrapped (fun _ => 0) (fun _ _ => (true, 5)) (fun _ => 1/2) (fun _ => 0)
        (Injector.init 0 0 [] none none 0) 0 0 [(1, "client_0", {})]).1 = [(true, 5)] ∧
    (runWrapped (fun _ => 0) (fun _ _ => (true, 5)) (fun _ => 1/2) (fun _ => 0)
        (Injector.init 0 0 [] none none 0) 0 0 [(1, "client_0", {})]).2.1
      = Injector.init 0 0 [] none none 0 :=
  C3_zero_injection_transparent (fun _ => 0) (fun _ _ => (true, 5)) 0 (fun _ => 1/2)
    (fun _ => 0) [(1, "client_0", {})] 0 0 (fun _ => by norm_num)

theorem should_drop_packet_of_crashed (pyHash : String → ℕ) (s : Injector) (now : ℚ)
    (cid : String) (r : ℕ → ℚ) (k : ℕ) (h : cid ∈ s.crashed_clients) :
    should_drop_packet pyHash s now cid r k = (true, s, k) := by
  simp [should_drop_packet, h]

theorem check_client_crashes_crashed_mono (s : Injector) (now : ℚ) (nr : ℕ → ℕ) (j : ℕ)
    (x : String) (h : x ∈ s.crashed_clients) :
    x ∈ (check_client_crashes s now nr j).2.1.crashed_clients := by
  unfold check_client_crashes
  suffices hgen : ∀ (l : List ℚ) (acc : List String × Injector × ℕ),
      x ∈ acc.2.1.crashed_clients →
      x ∈ (l.foldl (fun (acc : List String × Injector × ℕ) ct =>
        let s1 := acc.2.1
        let j1 := acc.2.2
        if |now - s.start_time - ct| < 1/2 ∧ crashRecorded s1.events ct = false then
          let cid := "client_" ++ toString (nr j1 % 11)
          let s2 := { s1 with crashed_clients := s1.crashed_clients.insert cid,
                              events := s1.events ++ [mkEvent (now - s.start_time) "client_crash" (some cid) none none] }
          (acc.1 ++ [cid], s2, j1 + 1)
        else acc) acc).2.1.crashed_clients by
    exact hgen s.crash_times ([], s, j) h
  intro l
  induction l with
  | nil => intro acc hacc; exact hacc
  | cons ct rest ih =>
    intro acc hacc
    simp only [List.foldl_cons]
    apply ih
    by_cases hc : |now - s.start_time - ct| < 1/2 ∧ crashRecorded acc.2.1.events ct = false
    · simp only [if_pos hc]
      exact List.mem_insert_of_mem hacc
    · simp only [if_neg hc]
      exact hacc

theorem check_network_partition_crashed (s : Injector) (now : ℚ) :
    (check_network_partition s now).2.crashed_clients = s.crashed_clients := by
  unfold check_network_partition
  split
  · rfl
  · split
    · rfl
    · split
      · rfl
      · rfl

theorem should_drop_packet_crashed (pyHash : String → ℕ) (s : Injector) (now : ℚ)
    (cid : String) (r : ℕ → ℚ) (k : ℕ) :
    (should_drop_packet pyHash s now cid r k).2.1.crashed_clients = s.crashed_clients := by
  unfold should_drop_packet
  split
  · rfl
  · split
    · rfl
    · split
      · rfl
      · rfl

theorem should_corrupt_message_crashed (s : Injector) (now : ℚ) (r : ℕ → ℚ) (k : ℕ) :
    (should_corrupt_message s now r k).2.1.crashed_clients = s.crashed_clients := by
  unfold should_corrupt_message
  split
  · rfl
  · rfl

theorem inject_latency_spike_crashed (s : Injector) (now : ℚ) (r : ℕ → ℚ) (k : ℕ) :
    (inject_latency_spike s now r k).2.1.crashed_clients = s.crashed_clients := by
  unfold inject_latency_spike
  split
  · rfl
  · split
    · rfl
    · rfl

theorem wrapped_send_of_crashed (pyHash : String → ℕ) (f : String → Payload → Bool × ℚ)
    (s : Injector) (now : ℚ) (cid : String) (data : Payload)
    (r : ℕ → ℚ) (k : ℕ) (nr : ℕ → ℕ) (j : ℕ) (h : cid ∈ s.crashed_clients) :
    wrapped_send pyHash f s now cid data r k nr j
      = ((false, 0), (check_network_partition (check_client_crashes s now nr j).2.1 now).2,
         k, (check_client_crashes s now nr j).2.2) := by
  have h1 : cid ∈ (check_client_crashes s now nr j).2.1.crashed_clients :=
    check_client_crashes_crashed_mono s now nr j cid h
  have h2 : cid ∈ (check_network_partition (check_client_crashes s now nr j).2.1 now).2.crashed_clients := by
    rw [check_network_partition_crashed]
    exact h1
  simp only [wrapped_send]
  rw [should_drop_packet_of_crashed pyHash _ now cid r k h2]
  simp

theorem wrapped_send_crashed_mono (pyHash : String → ℕ) (f : String → Payload → Bool × ℚ)
    (s : Injector) (now : ℚ) (cid : String) (data : Payload)
    (r : ℕ → ℚ) (k : ℕ) (nr : ℕ → ℕ) (j : ℕ) (x : String) (h : x ∈ s.crashed_clients) :
    x ∈ (wrapped_send pyHash f s now cid data r k nr j).2.1.crashed_clients := by
  have h1 : x ∈ (check_client_crashes s now nr j).2.1.crashed_clients :=
    check_client_crashes_crashed_mono s now nr j x h
  have h2 : x ∈ (check_network_partition (check_client_crashes s now nr j).2.1 now).2.crashed_clients := by
    rw [check_network_partition_crashed]; exact h1
  simp only [wrapped_send]
  by_cases hd : (should_drop_packet pyHash (check_network_partition (check_client_crashes s now nr j).2.1 now).2 now cid r k).1 = true
  · rw [if_pos hd, should_drop_packet_crashed]
    exact h2
  · rw [if_neg hd, inject_latency_spike_crashed, should_corrupt_message_crashed,
        should_drop_packet_crashed]
    exact h2

/-- C6: a client in the crashed set makes `should_drop_packet` drop, so
the wrapped send returns `(False, 0.0)` without consulting the
underlying driver (the result is the same for every `send_func`), the
client stays in the crashed set across the call, every injector
operation other than `revive_client` preserves crashed-set membership,
and `revive_client` removes exactly that client. -/
theorem C6_crashed_drops_until_revive :
    (∀ (pyHash : String → ℕ) (f g : String → Payload → Bool × ℚ) (s : Injector)
        (now : ℚ) (cid : String) (data : Payload) (r : ℕ → ℚ) (k : ℕ) (nr : ℕ → ℕ) (j : ℕ),
      cid ∈ s.crashed_clients →
        (wrapped_send pyHash f s now cid data r k nr j).1 = (false, 0) ∧
        cid ∈ (wrapped_send pyHash f s now cid data r k nr j).2.1.crashed_clients ∧
        wrapped_send pyHash f s now cid data r k nr j
          = wrapped_send pyHash g s now cid data r k nr j) ∧
    (∀ (s : Injector) (now : ℚ) (cid : String),
      (revive_client s now cid).crashed_clients = s.crashed_clients.erase cid) ∧
    (∀ (s : Injector) (now : ℚ) (nr : ℕ → ℕ) (j : ℕ) (x : String),
      x ∈ s.crashed_clients → x ∈ (check_client_crashes s now nr j).2.1.crashed_clients) ∧
    (∀ (s : Injector) (now : ℚ),
      (check_network_partition s now).2.crashed_clients = s.crashed_clients) ∧
    (∀ (pyHash : String → ℕ) (s : Injector) (now : ℚ) (cid : String) (r : ℕ → ℚ) (k : ℕ),
      (should_drop_packet pyHash s now cid r k).2.1.crashed_clients = s.crashed_clients) ∧
    (∀ (s : Injector) (now : ℚ) (r : ℕ → ℚ) (k : ℕ),
      (should_corrupt_message s now r k).2.1.crashed_clients = s.crashed_clients) ∧
    (∀ (s : Injector) (now : ℚ) (r : ℕ → ℚ) (k : ℕ),
      (inject_latency_spike s now r k).2.1.crashed_clients = s.crashed_clients) ∧
    (∀ (pyHash : String → ℕ) (f : String → Payload → Bool × ℚ) (s : Injector) (now : ℚ)
        (cid : String) (data : Payload) (r : ℕ → ℚ) (k : ℕ) (nr : ℕ → ℕ) (j : ℕ) (x : String),
      x ∈ s.crashed_clients → x ∈ (wrapped_send pyHash f s now cid data r k nr j).2.1.crashed_clients) := by
  refine ⟨?_, ?_, ?_, ?_, ?_, ?_, ?_, ?_⟩
  · intro pyHash f g s now cid data r k nr j h
    have hf := wrapped_send_of_crashed pyHash f s now cid data r k nr j h
    have hg := wrapped_send_of_crashed pyHash g s now cid data r k nr j h
    refine ⟨by rw [hf], ?_, by rw [hf, hg]⟩
    exact wrapped_send_crashed_mono pyHash f s now cid data r k nr j cid h
  · intro s now cid
    unfold revive_client
    by_cases h : cid ∈ s.crashed_clients
    · simp [h]
    · simp [h, List.erase_of_not_mem h]
  · exact check_client_crashes_crashed_mono
  · exact check_network_partition_crashed
  · exact should_drop_packet_crashed
  · exact should_corrupt_message_crashed
  · exact inject_latency_spike_crashed
  · exact fun pyHash f s now cid data r k nr j x h =>
      wrapped_send_crashed_mono pyHash f s now cid data r k nr j x h

/-- Witness for C6: with `"client_0"` crashed, the wrapped send returns
`(False, 0.0)` and `"client_0"` is still crashed afterwards. -/
theorem C6_witness :
    (wrapped_send (fun _ => 0) (fun _ _ => (true, 5))
        ⟨0, 0, [], none, none, ["client_0"], false, 0, 0, []⟩
        1 "client_0" {} (fun _ => 1/2) 0 (fun _ => 0) 0).1 = (false, 0) ∧
    "client_0" ∈ (wrapped_send (fun _ => 0) (fun _ _ => (true, 5))
        ⟨0, 0, [], none, none, ["client_0"], false, 0, 0, []⟩
        1 "client_0" {} (fun _ => 1/2) 0 (fun _ => 0) 0).2.1.crashed_clients ∧
    wrapped_send (fun _ => 0) (fun _ _ => (true, 5))
        ⟨0, 0, [], none, none, ["client_0"], false, 0, 0, []⟩
        1 "client_0" {} (fun _ => 1/2) 0 (fun _ => 0) 0
      = wrapped_send (fun _ => 0) (fun _ _ => (true, 7))
        ⟨0, 0, [], none, none, ["client_0"], false, 0, 0, []⟩
        1 "client_0" {} (fun _ => 1/2) 0 (fun _ => 0) 0 :=
  C6_crashed_drops_until_revive.1 (fun _ => 0) (fun _ _ => (true, 5)) (fun _ _ => (true, 7))
    ⟨0, 0, [], none, none, ["client_0"], false, 0, 0, []⟩
    1 "client_0" {} (fun _ => 1/2) 0 (fun _ => 0) 0 (by simp)

/-- The number of `client_crash` events in an event log. -/
def crashEventCount (evs : List FailureEvent) : ℕ :=
  (evs.filter (fun e => e.failure_type == "client_crash")).length

/-- The state change `check_client_crashes` applies when a configured
crash time fires: add the chosen client to the crashed set and append a
`client_crash` event stamped with the elapsed time. -/
def crashApply (s : Injector) (elapsed : ℚ) (cid : String) : Injector :=
  { s with crashed_clients := s.crashed_clients.insert cid, events := s.events ++ [mkEvent elapsed "client_crash" (some cid) none none] }

theorem check_client_crashes_single (s : Injector) (ct now : ℚ) (nr : ℕ → ℕ) (j : ℕ)
    (hct : s.crash_times = [ct]) :
    (check_client_crashes s now nr j).2.1
      = if |now - s.start_time - ct| < 1/2 ∧ crashRecorded s.events ct = false
        then crashApply s (now - s.start_time) ("client_" ++ toString (nr j % 11))
        else s := by
  unfold check_client_crashes
  rw [hct]
  by_cases hc : |now - s.start_time - ct| < 1/2 ∧ crashRecorded s.events ct = false
  · simp only [List.foldl_cons, List.foldl_nil, if_pos hc]
    rfl
  · simp only [List.foldl_cons, List.foldl_nil, if_neg hc]

theorem crashEventCount_crashApply (s : Injector) (elapsed : ℚ) (cid : String) :
    crashEventCount (crashApply s elapsed cid).events = crashEventCount s.events + 1 := by
  simp [crashApply, crashEventCount, List.filter_append, mkEvent]

theorem crashEventCount_single_call (s : Injector) (ct now : ℚ) (nr : ℕ → ℕ) (j : ℕ)
    (hct : s.crash_times = [ct]) :
    crashEventCount (check_client_crashes s now nr j).2.1.events
      = crashEventCount s.events
        + (if |now - s.start_time - ct| < 1/2 ∧ crashRecorded s.events ct = false
           then 1 else 0) := by
  rw [check_client_crashes_single s ct now nr j hct]
  by_cases hc : |now - s.start_time - ct| < 1/2 ∧ crashRecorded s.events ct = false
  · rw [if_pos hc, if_pos hc, crashEventCount_crashApply]
  · rw [if_neg hc, if_neg hc]
    exact (Nat.add_zero _).symm

/-- C5 (amended): a single call to `check_client_crashes` with one
configured crash time appends exactly one `client_crash` event when the
elapsed time is within 0.5s of the configured time and the configured
time differs from every recorded `client_crash` event's `time_sec`, and
none otherwise.  Because fired events record the elapsed time rather
than the configured time, the dedup test can fail to recognise an
earlier fire, so distinct calls inside the ±0.5s window can each append
an event for the same configured time (see the counterexample). -/
theorem C5_crash_fire_per_call (s : Injector) (ct now : ℚ) (nr : ℕ → ℕ) (j : ℕ)
    (hct : s.crash_times = [ct]) :
    crashEventCount (check_client_crashes s now nr j).2.1.events
      = crashEventCount s.events
        + (if |now - s.start_time - ct| < 1/2 ∧ crashRecorded s.events ct = false
           then 1 else 0) :=
  crashEventCount_single_call s ct now nr j hct

/-- Witness for C5 (amended): one call inside the window on a fresh
injector with `client_crashes=[5.0]`. -/
theorem C5_witness :
    crashEventCount (check_client_crashes ⟨0, 0, [5], none, none, [], false, 0, 0, []⟩
        5 (fun _ => 0) 0).2.1.events
      = crashEventCount ([] : List FailureEvent)
        + (if |(5:ℚ) - 0 - 5| < 1/2 ∧ crashRecorded [] 5 = false then 1 else 0) :=
  C5_crash_fire_per_call ⟨0, 0, [5], none, none, [], false, 0, 0, []⟩ 5 5 (fun _ => 0) 0 rfl

/-- Counterexample for C5 as stated: with `client_crashes=[5.0]`, a call
at elapsed 4.8s fires (recording `time_sec = 4.8`), and a second call at
elapsed 5.1s — still inside the ±0.5s window — fires again because the
dedup test compares the configured time 5.0 against the recorded 4.8;
two `client_crash` events are appended for the single configured time. -/
theorem C5_counterexample :
    crashEventCount (check_client_crashes
        (check_client_crashes ⟨0, 0, [5], none, none, [], false, 0, 0, []⟩
          (24/5) (fun _ => 0) 0).2.1
        (51/10) (fun _ => 0) 0).2.1.events = 2 := by
  have e1 := check_client_crashes_single ⟨0, 0, [5], none, none, [], false, 0, 0, []⟩
    5 (24/5) (fun _ => 0) 0 rfl
  have hc1 : |(24:ℚ)/5 - 0 - 5| < 1/2 ∧ crashRecorded [] 5 = false := by
    refine ⟨?_, rfl⟩
    rw [abs_lt]
    constructor <;> norm_num
  simp only at e1
  rw [if_pos hc1] at e1
  rw [e1]
  rw [crashEventCount_single_call
    (crashApply ⟨0, 0, [5], none, none, [], false, 0, 0, []⟩ (24/5 - 0) ("client_" ++ toString (0 % 11)))
    5 (51/10) (fun _ => 0) 0 rfl]
  have hc2 : |(51:ℚ)/10 - (crashApply ⟨0, 0, [5], none, none, [], false, 0, 0, []⟩ (24/5 - 0)
        ("client_" ++ toString (0 % 11))).start_time - 5| < 1/2 ∧
      crashRecorded (crashApply ⟨0, 0, [5], none, none, [], false, 0, 0, []⟩ (24/5 - 0)
        ("client_" ++ toString (0 % 11))).events 5 = false := by
    constructor
    · show |(51:ℚ)/10 - 0 - 5| < 1/2
      rw [abs_lt]
      constructor <;> norm_num
    · show crashRecorded [mkEvent ((24:ℚ)/5 - 0) "client_crash"
        (some ("client_" ++ toString (0 % 11))) none none] 5 = false
      simp only [crashRecorded, mkEvent, decide_eq_false_iff_not]
      intro hmem
      simp only [List.filter, List.map] at hmem
      norm_num at hmem
  rw [if_pos hc2, crashEventCount_crashApply]
  rfl

theorem check_client_crashes_rate (s : Injector) (now : ℚ) (nr : ℕ → ℕ) (j : ℕ) :
    (check_client_crashes s now nr j).2.1.packet_loss_rate = s.packet_loss_rate := by
  unfold check_client_crashes
  suffices hgen : ∀ (l : List ℚ) (acc : List String × Injector × ℕ),
      (l.foldl (fun (acc : List String × Injector × ℕ) ct =>
        let s1 := acc.2.1
        let j1 := acc.2.2
        if |now - s.start_time - ct| < 1/2 ∧ crashRecorded s1.events ct = false then
          let cid := "client_" ++ toString (nr j1 % 11)
          let s2 := { s1 with crashed_clients := s1.crashed_clients.insert cid,
                              events := s1.events ++ [mkEvent (now - s.start_time) "client_crash" (some cid) none none] }
          (acc.1 ++ [cid], s2, j1 + 1)
        else acc) acc).2.1.packet_loss_rate = acc.2.1.packet_loss_rate by
    exact hgen s.crash_times ([], s, j)
  intro l
  induction l with
  | nil => intro acc; rfl
  | cons ct rest ih =>
    intro acc
    simp only [List.foldl_cons]
    rw [ih]
    by_cases hc : |now - s.start_time - ct| < 1/2 ∧ crashRecorded acc.2.1.events ct = false
    · simp only [if_pos hc]
    · simp only [if_neg hc]

theorem check_network_partition_rate (s : Injector) (now : ℚ) :
    (check_network_partition s now).2.packet_loss_rate = s.packet_loss_rate := by
  unfold check_network_partition
  split
  · rfl
  · split
    · rfl
    · split
      · rfl
      · rfl

theorem should_drop_packet_rate (pyHash : String → ℕ) (s : Injector) (now : ℚ)
    (cid : String) (r : ℕ → ℚ) (k : ℕ) :
    (should_drop_packet pyHash s now cid r k).2.1.packet_loss_rate = s.packet_loss_rate := by
  unfold should_drop_packet
  split
  · rfl
  · split
    · rfl
    · split
      · rfl
      · rfl

theorem should_drop_packet_rate_one (pyHash : String → ℕ) (s : Injector) (now : ℚ)
    (cid : String) (r : ℕ → ℚ) (k : ℕ) (hrate : s.packet_loss_rate = 1) (hk : r k < 1) :
    (should_drop_packet pyHash s now cid r k).1 = true := by
  by_cases h1 : cid ∈ s.crashed_clients
  · simp [should_drop_packet, h1]
  · by_cases h2 : s.partition_active = true ∧ now < s.partition_end_time ∧ pyHash cid % 2 = 0
    · simp [should_drop_packet, h1, h2]
    · have h3 : r k < s.packet_loss_rate := by rw [hrate]; exact hk
      simp [should_drop_packet, h1, h2, h3]

theorem wrapped_send_drop_all (pyHash : String → ℕ) (f : String → Payload → Bool × ℚ)
    (s : Injector) (now : ℚ) (cid : String) (data : Payload)
    (r : ℕ → ℚ) (k : ℕ) (nr : ℕ → ℕ) (j : ℕ)
    (hrate : s.packet_loss_rate = 1) (hk : r k < 1) :
    (wrapped_send pyHash f s now cid data r k nr j).1 = (false, 0) ∧
    (wrapped_send pyHash f s now cid data r k nr j).2.1.packet_loss_rate = 1 := by
  have hrate2 : (check_network_partition (check_client_crashes s now nr j).2.1 now).2.packet_loss_rate = 1 := by
    rw [check_network_partition_rate, check_client_crashes_rate]
    exact hrate
  have hd : (should_drop_packet pyHash
      (check_network_partition (check_client_crashes s now nr j).2.1 now).2 now cid r k).1 = true :=
    should_drop_packet_rate_one pyHash _ now cid r k hrate2 hk
  simp only [wrapped_send]
  rw [if_pos hd]
  refine ⟨rfl, ?_⟩
  rw [should_drop_packet_rate]
  exact hrate2

/-- The active orchestration loop driven through the injector-wrapped
send (the composition set up in `run_single_test`): each item is
`(t0, now, cid, payload)`; the wrapped outcome `(ok, t_srv)` is handed
to the metrics step exactly as `_run_active` does. -/
def runActiveInjected (pyHash : String → ℕ) (f : String → Payload → Bool × ℚ)
    (r : ℕ → ℚ) (nr : ℕ → ℕ) :
    OrchMetrics → Injector → ℕ → ℕ → List (ℚ × ℚ × String × Payload) →
      OrchMetrics × Injector × ℕ × ℕ
  | m, s, k, j, [] => (m, s, k, j)
  | m, s, k, j, it :: rest =>
    let w := wrapped_send pyHash f s it.2.1 it.2.2.1 it.2.2.2 r k nr j
    runActiveInjected pyHash f r nr (stepActive m it.1 (.returned w.1.1 (some w.1.2)))
      w.2.1 w.2.2.1 w.2.2.2 rest

theorem stepActive_not_ok (m : OrchMetrics) (t0 : ℚ) :
    stepActive m t0 (.returned false (some 0)) = { m with sent := m.sent + 1 } := by
  simp [stepActive]

theorem runActiveInjected_drop_all (pyHash : String → ℕ) (f : String → Payload → Bool × ℚ)
    (r : ℕ → ℚ) (nr : ℕ → ℕ) (items : List (ℚ × ℚ × String × Payload))
    (hr : ∀ i, r i < 1) :
    ∀ (m : OrchMetrics) (s : Injector) (k j : ℕ), s.packet_loss_rate = 1 →
      (runActiveInjected pyHash f r nr m s k j items).1.sent = m.sent + items.length ∧
      (runActiveInjected pyHash f r nr m s k j items).1.recv = m.recv ∧
      (runActiveInjected pyHash f r nr m s k j items).1.lat = m.lat := by
  induction items with
  | nil => intro m s k j _; exact ⟨rfl, rfl, rfl⟩
  | cons it rest ih =>
    intro m s k j hs
    have hw := wrapped_send_drop_all pyHash f s it.2.1 it.2.2.1 it.2.2.2 r k nr j hs (hr k)
    simp only [runActiveInjected, hw.1, stepActive_not_ok]
    have hres := ih { m with sent := m.sent + 1 }
      (wrapped_send pyHash f s it.2.1 it.2.2.1 it.2.2.2 r k nr j).2.1
      (wrapped_send pyHash f s it.2.1 it.2.2.1 it.2.2.2 r k nr j).2.2.1
      (wrapped_send pyHash f s it.2.1 it.2.2.1 it.2.2.2 r k nr j).2.2.2 hw.2
    refine ⟨?_, hres.2.1, hres.2.2⟩
    rw [hres.1]
    show m.sent + 1 + rest.length = m.sent + (it :: rest).length
    simp only [List.length_cons]
    omega

theorem saveReportLoss_of_recv_zero (m : OrchMetrics) (h : m.recv = 0) :
    saveReportLoss m = 1 := by
  simp [saveReportLoss, h]

/-- C7: with `packet_loss = 1.0` (and `random.random()` draws below 1,
as they always are), every wrapped send returns `(False, 0.0)`; running
the active loop through the injector from fresh metrics increments
`sent` once per Reading, leaves `recv` at 0 and records no latency, and
the finalized summary loss equals 1.0. -/
theorem C7_total_packet_loss (pyHash : String → ℕ) (f : String → Payload → Bool × ℚ)
    (s : Injector) (r : ℕ → ℚ) (nr : ℕ → ℕ) (items : List (ℚ × ℚ × String × Payload))
    (k j : ℕ) (hs : s.packet_loss_rate = 1) (hr : ∀ i, r i < 1) :
    (∀ (now : ℚ) (cid : String) (data : Payload) (s1 : Injector) (k1 j1 : ℕ),
       s1.packet_loss_rate = 1 →
       (wrapped_send pyHash f s1 now cid data r k1 nr j1).1 = (false, 0)) ∧
    (runActiveInjected pyHash f r nr OrchMetrics.init s k j items).1.sent = items.length ∧
    (runActiveInjected pyHash f r nr OrchMetrics.init s k j items).1.recv = 0 ∧
    saveReportLoss (runActiveInjected pyHash f r nr OrchMetrics.init s k j items).1 = 1 := by
  have hrun := runActiveInjected_drop_all pyHash f r nr items hr OrchMetrics.init s k j hs
  refine ⟨?_, ?_, hrun.2.1, ?_⟩
  · intro now cid data s1 k1 j1 hs1
    exact (wrapped_send_drop_all pyHash f s1 now cid data r k1 nr j1 hs1 (hr k1)).1
  · rw [hrun.1]
    simp [OrchMetrics.init]
  · exact saveReportLoss_of_recv_zero _ hrun.2.1

/-- Witness for C7: one Reading through a `packet_loss = 1.0` injector:
the send is dropped, `sent = 1`, `recv = 0`, loss `= 1`. -/
theorem C7_witness :
    (∀ (now : ℚ) (cid : String) (data : Payload) (s1 : Injector) (k1 j1 : ℕ),
       s1.packet_loss_rate = 1 →
       (wrapped_send (fun _ => 0) (fun _ _ => (true, 5)) s1 now cid data (fun _ => 1/2) k1
         (fun _ => 0) j1).1 = (false, 0)) ∧
    (runActiveInjected (fun _ => 0) (fun _ _ => (true, 5)) (fun _ => 1/2) (fun _ => 0)
        OrchMetrics.init (Injector.init 1 0 [] none none 0) 0 0
        [(0, 1, "client_0", {})]).1.sent = 1 ∧
    (runActiveInjected (fun _ => 0) (fun _ _ => (true, 5)) (fun _ => 1/2) (fun _ => 0)
        OrchMetrics.init (Injector.init 1 0 [] none none 0) 0 0
        [(0, 1, "client_0", {})]).1.recv = 0 ∧
    saveReportLoss (runActiveInjected (fun _ => 0) (fun _ _ => (true, 5)) (fun _ => 1/2)
        (fun _ => 0) OrchMetrics.init (Injector.init 1 0 [] none none 0) 0 0
        [(0, 1, "client_0", {})]).1 = 1 :=
  C7_total_packet_loss (fun _ => 0) (fun _ _ => (true, 5)) (Injector.init 1 0 [] none none 0)
    (fun _ => 1/2) (fun _ => 0) [(0, 1, "client_0", {})] 0 0 rfl (fun _ => by norm_num)

/-! ## Traffic generator (`stgen/sensor_generator.py`)

Only the client index and the `seq_no` carried by each yielded packet
are modelled: the Python client id is the injective formatting
`"client_" ++ toString i` of the device index `i`, and the random sensor
payload, timestamps and the inter-send interval do not affect
sequencing. -/

/-- One pass of the `for device in devices` body of
`generate_sensor_stream`: for each device (in order), `seq_no += 1`
precedes the yield; the pair (device index, seq_no) is yielded. -/
def streamRound (devs : List ℕ) (seq : ℕ) : List (ℕ × ℕ) × ℕ :=
  match devs with
  | [] => ([], seq)
  | i :: rest =>
    let t := streamRound rest (seq + 1)
    ((i, seq + 1) :: t.1, t.2)

/-- The `while (time.time() - start_time) < duration` loop of
`generate_sensor_stream`, run for `ticks` completed passes (the guard is
wall-clock time, checked only between passes, so the pass count is kept
abstract).  `seq_no` is a single counter shared by all clients and is
never reduced modulo 65536. -/
def streamLoop (devs : List ℕ) : ℕ → ℕ → List (ℕ × ℕ)
  | 0, _ => []
  | t + 1, seq => (streamRound devs seq).1 ++ streamLoop devs t (streamRound devs seq).2

/-- `generate_sensor_stream` with `num_clients` devices
(`range num_clients`), starting from `seq_no = 0`. -/
def streamYields (num_clients ticks : ℕ) : List (ℕ × ℕ) :=
  streamLoop (List.range num_clients) ticks 0

theorem streamRound_snd (devs : List ℕ) (seq : ℕ) :
    (streamRound devs seq).2 = seq + devs.length := by
  induction devs generalizing seq with
  | nil => rfl
  | cons i rest ih =>
    simp only [streamRound, ih (seq + 1), List.length_cons]
    omega

theorem streamRound_map_snd (devs : List ℕ) (seq : ℕ) :
    (streamRound devs seq).1.map Prod.snd = List.range' (seq + 1) devs.length := by
  induction devs generalizing seq with
  | nil => rfl
  | cons i rest ih =>
    simp [streamRound, ih (seq + 1), List.range'_succ]

theorem streamLoop_map_snd (devs : List ℕ) (t seq : ℕ) :
    (streamLoop devs t seq).map Prod.snd = List.range' (seq + 1) (devs.length * t) := by
  induction t generalizing seq with
  | zero => simp [streamLoop]
  | succ n ih =>
    have happ : List.range' (seq + 1) devs.length ++
        List.range' (seq + 1 + devs.length) (devs.length * n)
        = List.range' (seq + 1) (devs.length * n + devs.length) := by
      have h := List.range'_append (seq + 1) devs.length (devs.length * n) 1
      rw [one_mul] at h
      exact h
    simp only [streamLoop, List.map_append, streamRound_map_snd, streamRound_snd, ih]
    rw [show seq + devs.length + 1 = seq + 1 + devs.length by omega, happ, Nat.mul_succ]

theorem streamRound_range' (len s seq : ℕ) :
    (streamRound (List.range' s len) seq).1
      = (List.range len).map (fun p => (s + p, seq + p + 1)) := by
  induction len generalizing s seq with
  | zero => rfl
  | succ n ih =>
    rw [List.range'_succ]
    simp only [streamRound, ih (s + 1) (seq + 1), List.range_succ_eq_map, List.map_cons,
      List.map_map]
    refine List.cons_eq_cons.mpr ⟨by simp, ?_⟩
    apply List.map_congr_left
    intro u hu
    show (s + 1 + u, seq + 1 + u + 1) = (s + (u + 1), seq + (u + 1) + 1)
    rw [show s + 1 + u = s + (u + 1) from by omega,
        show seq + 1 + u + 1 = seq + (u + 1) + 1 from by omega]

theorem count_range_of_lt (i num : ℕ) (hi : i < num) :
    (List.range num).count i = 1 :=
  List.count_eq_one_of_mem (List.nodup_range num) (List.mem_range.mpr hi)

theorem streamRound_filter (num seq i : ℕ) (hi : i < num) :
    ((streamRound (List.range num) seq).1.filter (fun y => y.1 == i))
      = [(i, seq + i + 1)] := by
  rw [List.range_eq_range', streamRound_range' num 0 seq, List.filter_map]
  have hf : ((fun (y : ℕ × ℕ) => y.1 == i) ∘ fun p => (0 + p, seq + p + 1))
      = fun p => p == i := by
    funext p
    simp [Function.comp]
  rw [hf, List.filter_beq, count_range_of_lt i num hi]
  simp

theorem streamLoop_filter (num i : ℕ) (hi : i < num) (t : ℕ) : ∀ (seq : ℕ),
    ((streamLoop (List.range num) t seq).filter (fun y => y.1 == i))
      = (List.range t).map (fun u => (i, seq + u * num + i + 1)) := by
  induction t with
  | zero => intro seq; rfl
  | succ n ih =>
    intro seq
    simp only [streamLoop, List.filter_append, streamRound_filter num seq i hi,
      streamRound_snd, List.length_range, ih, List.range_succ_eq_map,
      List.map_cons, List.map_map, List.singleton_append]
    refine List.cons_eq_cons.mpr ⟨by simp, ?_⟩
    apply List.map_congr_left
    intro u hu
    show (i, seq + num + u * num + i + 1) = (i, seq + (u + 1) * num + i + 1)
    rw [show seq + num + u * num + i + 1 = seq + (u + 1) * num + i + 1 from by ring]

/-- Counterexample for C4 as stated: with two clients, the consecutive
Readings of client 0 carry `seq_no` 1 and then 3 — the global counter
skips 2 for that client, so per-client sequence numbers have gaps — and
with one client the stream's 65537th Reading carries `seq_no = 65537`,
which exceeds the 16-bit range: the live generator never reduces
`seq_no` modulo 65536. -/
theorem C4_counterexample :
    ((streamYields 2 2).filter (fun y => y.1 == 0)).map Prod.snd = [1, 3] ∧
    ¬ (1 + 1 = 3) ∧
    65537 ∈ (streamYields 1 65537).map Prod.snd := by
  refine ⟨by decide, by decide, ?_⟩
  rw [streamYields, streamLoop_map_snd]
  simp only [List.length_range]
  rw [List.mem_range']
  exact ⟨65536, by omega, by omega⟩

/-- C4 (amended): `seq_no` is one global counter across all clients: the
whole stream's sequence numbers are exactly `1, 2, …, num_clients·ticks`
in order, with no reduction modulo 65536; consequently the successive
Readings of a fixed client `i` carry `u·num_clients + i + 1` for
`u = 0, 1, …` — strictly increasing with stride `num_clients`, not
consecutive when `num_clients > 1`, and unbounded rather than wrapping
at 65536. -/
theorem C4_global_sequence_counter (num t i : ℕ) (hi : i < num) :
    (streamYields num t).map Prod.snd = List.range' 1 (num * t) ∧
    ((streamYields num t).filter (fun y => y.1 == i)).map Prod.snd
      = (List.range t).map (fun u => u * num + i + 1) := by
  constructor
  · rw [streamYields, streamLoop_map_snd]
    simp [List.length_range]
  · rw [streamYields, streamLoop_filter num i hi t 0, List.map_map]
    apply List.map_congr_left
    intro u hu
    simp [Function.comp]

/-- Witness for C4 (amended): two clients, two passes — the global
sequence numbers are `[1, 2, 3, 4]` and client 0 sees `[1, 3]`. -/
theorem C4_witness :
    (streamYields 2 2).map Prod.snd = List.range' 1 (2 * 2) ∧
    ((streamYields 2 2).filter (fun y => y.1 == 0)).map Prod.snd
      = (List.range 2).map (fun u => u * 2 + 0 + 1) :=
  C4_global_sequence_counter 2 2 0 (by norm_num)

/-! ## CLI runner (`stgen/main.py`) -/

/-- The persistence decision at the end of `run_single_test`:
`if ok or orch.metrics["sent"] > 0:` the report is saved via
`orch.save_report` and the function returns True; otherwise nothing is
saved and it returns False. -/
def runSingleTestSaves (ok : Bool) (m : OrchMetrics) : Bool :=
  ok || decide (0 < m.sent)

/-- C8: after the run, the report is persisted iff the run completed
normally (`run_test` returned True) or at least one message was sent; in
particular an interrupted run with `sent ≥ 1` still persists its partial
summary, and a run that neither completed nor sent anything persists
nothing and is reported as failed. -/
theorem C8_report_persisted_iff (ok : Bool) (trace : List (ℚ × DriverResult)) :
    (runSingleTestSaves ok (runActive OrchMetrics.init trace) = true ↔
      ok = true ∨ 0 < (runActive OrchMetrics.init trace).sent) ∧
    (ok = false → 0 < (runActive OrchMetrics.init trace).sent →
      runSingleTestSaves ok (runActive OrchMetrics.init trace) = true) ∧
    (ok = false → (runActive OrchMetrics.init trace).sent = 0 →
      runSingleTestSaves ok (runActive OrchMetrics.init trace) = false) := by
  refine ⟨?_, ?_, ?_⟩
  · simp [runSingleTestSaves]
  · intro hok hsent
    simp [runSingleTestSaves, hok, hsent]
  · intro hok hsent
    simp [runSingleTestSaves, hok, hsent]

/-- Witness for C8: a run that was interrupted (`ok = false`) after one
successful send still persists the report. -/
theorem C8_witness :
    (runSingleTestSaves false (runActive OrchMetrics.init [(0, .returned true (some 1))]) = true ↔
      false = true ∨ 0 < (runActive OrchMetrics.init [(0, .returned true (some 1))]).sent) ∧
    (false = false → 0 < (runActive OrchMetrics.init [(0, .returned true (some 1))]).sent →
      runSingleTestSaves false (runActive OrchMetrics.init [(0, .returned true (some 1))]) = true) ∧
    (false = false → (runActive OrchMetrics.init [(0, .returned true (some 1))]).sent = 0 →
      runSingleTestSaves false (runActive OrchMetrics.init [(0, .returned true (some 1))]) = false) :=
  C8_report_persisted_iff false [(0, .returned true (some 1))]

/-! ## Metrics pipeline (`stgen/metrics_collector.py`) -/

/-- `StreamingPercentile` state: the `deque(maxlen=buffer_size)` buffer,
the lazily sorted cache and its validity flag (`sorted_cache = None` at
construction is modelled by an empty cache with `cache_valid = false`). -/
structure StreamingPercentile where
  maxlen : ℕ
  buffer : List ℚ
  sorted_cache : List ℚ
  cache_valid : Bool

/-- `StreamingPercentile.__init__(buffer_size)`. -/
def StreamingPercentile.mk0 (buffer_size : ℕ) : StreamingPercentile :=
  ⟨buffer_size, [], [], false⟩

/-- `StreamingPercentile.add`: `deque.append` (discarding the oldest
entries beyond `maxlen`) and cache invalidation. -/
def StreamingPercentile.add (s : StreamingPercentile) (v : ℚ) : StreamingPercentile :=
  let b := s.buffer ++ [v]
  { s with buffer := b.drop (b.length - s.maxlen), cache_valid := false }

/-- `StreamingPercentile._ensure_sorted`. -/
def ensure_sorted (s : StreamingPercentile) : StreamingPercentile :=
  if s.cache_valid = false then
    { s with sorted_cache := s.buffer.mergeSort (fun a b => a ≤ b), cache_valid := true }
  else s

/-- `StreamingPercentile.percentile`: 0.0 on an empty buffer, else
`sorted_cache[min(max(int(p/100 * N), 0), N - 1)]` after
`_ensure_sorted`. -/
def StreamingPercentile.percentile (s : StreamingPercentile) (p : ℚ) : ℚ :=
  if s.buffer.length = 0 then 0
  else
    let s1 := ensure_sorted s
    let n := s1.sorted_cache.length
    let idx := min (max (pyTrunc (p / 100 * (n : ℚ))) 0) ((n : ℤ) - 1)
    s1.sorted_cache.getD idx.toNat 0

theorem ensure_sorted_cache (s : StreamingPercentile)
    (hwf : s.cache_valid = true → s.sorted_cache = s.buffer.mergeSort (fun a b => a ≤ b)) :
    (ensure_sorted s).sorted_cache = s.buffer.mergeSort (fun a b => a ≤ b) := by
  unfold ensure_sorted
  by_cases hv : s.cache_valid = false
  · rw [if_pos hv]
  · rw [if_neg hv]
    exact hwf (by revert hv; cases s.cache_valid <;> simp)

/-- C9: on a non-empty buffer of `N` samples, for `0 ≤ p ≤ 100` (on any
state whose cache, when flagged valid, is the sorted buffer — the
invariant `add`/`_ensure_sorted` maintain), `percentile p` returns the
element at index `min(max(⌊p/100·N⌋, 0), N-1) = min(⌊p/100·N⌋, N-1)` of
the sorted buffer contents; on an empty buffer it returns 0.0. -/
theorem C9_percentile_clamped_order_statistic (s : StreamingPercentile) (p : ℚ)
    (hwf : s.cache_valid = true → s.sorted_cache = s.buffer.mergeSort (fun a b => a ≤ b))
    (hp0 : 0 ≤ p) (hp1 : p ≤ 100) :
    (s.buffer.length = 0 → s.percentile p = 0) ∧
    (∀ hne : s.buffer.length ≠ 0,
      ∃ hlt : min (⌊p / 100 * (s.buffer.length : ℚ)⌋.toNat) (s.buffer.length - 1)
          < (s.buffer.mergeSort (fun a b => a ≤ b)).length,
        s.percentile p = (s.buffer.mergeSort (fun a b => a ≤ b)).get
          ⟨min (⌊p / 100 * (s.buffer.length : ℚ)⌋.toNat) (s.buffer.length - 1), hlt⟩) := by
  constructor
  · intro h0
    simp [StreamingPercentile.percentile, h0]
  · intro hne
    have hcache := ensure_sorted_cache s hwf
    have hlen : (ensure_sorted s).sorted_cache.length = s.buffer.length := by
      rw [hcache, List.length_mergeSort]
    have hx : (0 : ℚ) ≤ p / 100 * ((ensure_sorted s).sorted_cache.length : ℚ) := by
      apply mul_nonneg (by positivity) (by positivity)
    have htr : pyTrunc (p / 100 * ((ensure_sorted s).sorted_cache.length : ℚ))
        = ⌊p / 100 * ((ensure_sorted s).sorted_cache.length : ℚ)⌋ := by
      unfold pyTrunc
      rw [if_neg (not_lt.mpr hx)]
    have hfl0 : 0 ≤ ⌊p / 100 * ((ensure_sorted s).sorted_cache.length : ℚ)⌋ :=
      Int.floor_nonneg.mpr hx
    have hnpos : 1 ≤ s.buffer.length := Nat.one_le_iff_ne_zero.mpr hne
    have hidx : (min (max (pyTrunc (p / 100 * ((ensure_sorted s).sorted_cache.length : ℚ))) 0)
        (((ensure_sorted s).sorted_cache.length : ℤ) - 1)).toNat
        = min (⌊p / 100 * (s.buffer.length : ℚ)⌋.toNat) (s.buffer.length - 1) := by
      rw [htr, hlen]
      omega
    have hbound : min (⌊p / 100 * (s.buffer.length : ℚ)⌋.toNat) (s.buffer.length - 1)
        < (s.buffer.mergeSort (fun a b => a ≤ b)).length := by
      rw [List.length_mergeSort]
      omega
    refine ⟨hbound, ?_⟩
    simp only [StreamingPercentile.percentile, if_neg hne]
    rw [hidx, hcache]
    exact List.getD_eq_getElem _ _ hbound

/-- Witness for C9: buffer `[3, 1, 2]`, `p = 50`: index
`min(⌊0.5·3⌋, 2) = 1` of the sorted buffer `[1, 2, 3]`. -/
theorem C9_witness :
    ((⟨10, [3, 1, 2], [], false⟩ : StreamingPercentile).buffer.length = 0 →
      (⟨10, [3, 1, 2], [], false⟩ : StreamingPercentile).percentile 50 = 0) ∧
    (∀ hne : (⟨10, [3, 1, 2], [], false⟩ : StreamingPercentile).buffer.length ≠ 0,
      ∃ hlt : min (⌊(50 : ℚ) / 100 *
            (((⟨10, [3, 1, 2], [], false⟩ : StreamingPercentile).buffer.length : ℚ))⌋.toNat)
          ((⟨10, [3, 1, 2], [], false⟩ : StreamingPercentile).buffer.length - 1)
          < ((⟨10, [3, 1, 2], [], false⟩ : StreamingPercentile).buffer.mergeSort
              (fun a b => a ≤ b)).length,
        (⟨10, [3, 1, 2], [], false⟩ : StreamingPercentile).percentile 50
          = ((⟨10, [3, 1, 2], [], false⟩ : StreamingPercentile).buffer.mergeSort
              (fun a b => a ≤ b)).get
            ⟨min (⌊(50 : ℚ) / 100 *
                (((⟨10, [3, 1, 2], [], false⟩ : StreamingPercentile).buffer.length : ℚ))⌋.toNat)
              ((⟨10, [3, 1, 2], [], false⟩ : StreamingPercentile).buffer.length - 1), hlt⟩) :=
  C9_percentile_clamped_order_statistic ⟨10, [3, 1, 2], [], false⟩ 50
    (by intro h; simp at h) (by norm_num) (by norm_num)

/-- `HistogramBucket` state. -/
structure HistogramBucket where
  min_val : ℚ
  max_val : ℚ
  num_buckets : ℕ
  buckets : List ℕ
  underflow : ℕ
  overflow : ℕ
  total_count : ℕ
  total_sum : ℚ
  bucket_width : ℚ

/-- `HistogramBucket.__init__`: `num_buckets` zeroed buckets and
`bucket_width = (max_val - min_val) / num_buckets` (the Python
constructor divides by `num_buckets`, so a histogram with
`num_buckets = 0` cannot be constructed — the division raises). -/
def HistogramBucket.mk0 (mn mx : ℚ) (n : ℕ) : HistogramBucket :=
  ⟨mn, mx, n, List.replicate n 0, 0, 0, 0, 0, (mx - mn) / (n : ℚ)⟩

/-- `HistogramBucket.add`: count and sum always accrue; then exactly one
of underflow (`value < min_val`), overflow (`value >= max_val`) or the
containing bucket `min(int((value - min_val) / bucket_width),
num_buckets - 1)` is incremented.  (In the reachable in-range branch
`min_val ≤ value < max_val` forces `min_val < max_val`, so the quotient
is nonnegative, Python's `int()` truncation is the floor, and the list
index is in range.) -/
def HistogramBucket.add (h : HistogramBucket) (value : ℚ) : HistogramBucket :=
  let h1 := { h with total_count := h.total_count + 1, total_sum := h.total_sum + value }
  if value < h1.min_val then { h1 with underflow := h1.underflow + 1 }
  else if h1.max_val ≤ value then { h1 with overflow := h1.overflow + 1 }
  else
    let idx := min (pyTrunc ((value - h1.min_val) / h1.bucket_width)).toNat (h1.num_buckets - 1)
    { h1 with buckets := h1.buckets.set idx (h1.buckets.getD idx 0 + 1) }

/-- A finite sequence of `add` calls. -/
def HistogramBucket.addAll (h : HistogramBucket) (vs : List ℚ) : HistogramBucket :=
  vs.foldl HistogramBucket.add h

theorem sum_set_getD_succ (l : List ℕ) (i : ℕ) (h : i < l.length) :
    (l.set i (l.getD i 0 + 1)).sum = l.sum + 1 := by
  induction l generalizing i with
  | nil => simp at h
  | cons x xs ih =>
    cases i with
    | zero => simp [Nat.add_right_comm]
    | succ n =>
      simp only [List.set, List.getD_cons_succ, List.sum_cons]
      rw [ih n (by simpa using h)]
      omega

/-- The shape invariant of a constructed histogram: the bucket list has
`num_buckets` entries, `num_buckets` is positive, and the total count is
split among underflow, overflow and the buckets. -/
def HistInv (h : HistogramBucket) : Prop :=
  h.buckets.length = h.num_buckets ∧ 0 < h.num_buckets ∧
  h.total_count = h.underflow + h.overflow + h.buckets.sum

theorem add_histInv (h : HistogramBucket) (v : ℚ) (hinv : HistInv h) :
    HistInv (h.add v) ∧ (h.add v).total_count = h.total_count + 1 ∧
      (h.add v).total_sum = h.total_sum + v := by
  obtain ⟨hlen, hpos, hcnt⟩ := hinv
  simp only [HistogramBucket.add]
  by_cases h1 : v < h.min_val
  · rw [if_pos h1]
    exact ⟨⟨hlen, hpos, by show h.total_count + 1 = h.underflow + 1 + h.overflow + h.buckets.sum; omega⟩, rfl, rfl⟩
  · rw [if_neg h1]
    by_cases h2 : h.max_val ≤ v
    · rw [if_pos h2]
      exact ⟨⟨hlen, hpos, by show h.total_count + 1 = h.underflow + (h.overflow + 1) + h.buckets.sum; omega⟩, rfl, rfl⟩
    · rw [if_neg h2]
      have hidx : min (pyTrunc ((v - h.min_val) / h.bucket_width)).toNat (h.num_buckets - 1)
          < h.buckets.length := by
        rw [hlen]
        omega
      refine ⟨⟨?_, hpos, ?_⟩, rfl, rfl⟩
      · show (h.buckets.set _ _).length = h.num_buckets
        rw [List.length_set]
        exact hlen
      · show h.total_count + 1 = h.underflow + h.overflow + (h.buckets.set _ (h.buckets.getD _ 0 + 1)).sum
        rw [sum_set_getD_succ h.buckets _ hidx]
        omega

theorem addAll_histInv (vs : List ℚ) : ∀ (h : HistogramBucket), HistInv h →
    HistInv (h.addAll vs) ∧ (h.addAll vs).total_count = h.total_count + vs.length ∧
      (h.addAll vs).total_sum = h.total_sum + vs.sum := by
  induction vs with
  | nil =>
    intro h hi
    exact ⟨hi, rfl, by simp [HistogramBucket.addAll]⟩
  | cons v rest ih =>
    intro h hi
    have hstep := add_histInv h v hi
    have hrest := ih (h.add v) hstep.1
    refine ⟨hrest.1, ?_, ?_⟩
    · show (HistogramBucket.addAll (h.add v) rest).total_count = h.total_count + (v :: rest).length
      rw [hrest.2.1, hstep.2.1, List.length_cons]
      omega
    · show (HistogramBucket.addAll (h.add v) rest).total_sum = h.total_sum + (v :: rest).sum
      rw [hrest.2.2, hstep.2.2, List.sum_cons]
      ring

/-- C10: starting from a freshly constructed histogram (any range, a
positive bucket count — the constructor requires one), after any finite
sequence of `add` calls: `total_count` equals the number of calls,
`total_sum` equals the sum of the added values, and `total_count` splits
exactly as `underflow + overflow + (sum of all bucket counts)`. -/
theorem C10_histogram_accounting (mn mx : ℚ) (n : ℕ) (hn : 0 < n) (vs : List ℚ) :
    ((HistogramBucket.mk0 mn mx n).addAll vs).total_count = vs.length ∧
    ((HistogramBucket.mk0 mn mx n).addAll vs).total_sum = vs.sum ∧
    ((HistogramBucket.mk0 mn mx n).addAll vs).total_count
      = ((HistogramBucket.mk0 mn mx n).addAll vs).underflow
        + ((HistogramBucket.mk0 mn mx n).addAll vs).overflow
        + ((HistogramBucket.mk0 mn mx n).addAll vs).buckets.sum := by
  have hinv : HistInv (HistogramBucket.mk0 mn mx n) :=
    ⟨by simp [HistogramBucket.mk0], hn, by simp [HistogramBucket.mk0]⟩
  have hres := addAll_histInv vs (HistogramBucket.mk0 mn mx n) hinv
  refine ⟨?_, ?_, hres.1.2.2⟩
  · rw [hres.2.1]
    show 0 + vs.length = vs.length
    omega
  · rw [hres.2.2]
    show 0 + vs.sum = vs.sum
    ring

/-- Witness for C10: the default-range histogram (0, 1000, 100 buckets)
after adding an in-range, an overflow and an underflow value. -/
theorem C10_witness :
    ((HistogramBucket.mk0 0 1000 100).addAll [5, 2000, -3]).total_count = 3 ∧
    ((HistogramBucket.mk0 0 1000 100).addAll [5, 2000, -3]).total_sum
      = ([5, 2000, -3] : List ℚ).sum ∧
    ((HistogramBucket.mk0 0 1000 100).addAll [5, 2000, -3]).total_count
      = ((HistogramBucket.mk0 0 1000 100).addAll [5, 2000, -3]).underflow
        + ((HistogramBucket.mk0 0 1000 100).addAll [5, 2000, -3]).overflow
        + ((HistogramBucket.mk0 0 1000 100).addAll [5, 2000, -3]).buckets.sum :=
  C10_histogram_accounting 0 1000 100 (by norm_num) [5, 2000, -3]

end STGen
